import Mathlib

/-!
Shallow embedding of `src/scraper/superbid_monitor.py` (SuperBid bid monitor).

Conventions of the embedding:
- JSON/Python values that may be absent or null are modelled with `Option`
  (Python `dict.get` returns `None` for an absent key).
- Python dicts built by key assignment are modelled as association lists in
  which assignment replaces the value of an existing key in place and appends
  a fresh key at the end, matching insertion-order semantics of `dict`.
- The Supabase client, the HTTP session and the wall clock are modelled as
  oracles carried in an `Env` value; an exception raised by an external call
  is modelled as the corresponding oracle returning `none`.
- The float literal `0.1` of the low-match-rate check is modelled exactly as
  the IEEE-754 double nearest to 1/10, and the multiplication
  `len(self.db_items) * 0.1` as an exact round-to-nearest-even of the product,
  so boundary behaviour of the warning is settled over the real float
  semantics, not an idealisation.
-/

/-- Python dict assignment `m[k] = v` on an association list: replaces the
value of an existing key in place, otherwise appends the new binding. -/
def updateAssoc {α β : Type} [DecidableEq α] : List (α × β) → α → β → List (α × β)
  | [], k, v => [(k, v)]
  | (k1, v1) :: t, k, v => if k1 = k then (k, v) :: t else (k1, v1) :: updateAssoc t k v

/-- Python dict lookup `m.get(k)` on an association list. -/
def lookupAssoc {α β : Type} [DecidableEq α] : List (α × β) → α → Option β
  | [], _ => none
  | (k1, v1) :: t, k => if k1 = k then some v1 else lookupAssoc t k

/-- The JSON `id` field of an offer, which may be an integer or a string
(line 150 of the source reads it untyped). -/
inductive OfferId : Type
  | intId (n : ℤ)
  | strId (s : String)
deriving DecidableEq, Repr

/-- Python truthiness of an offer id: the integer 0 and the empty string are
falsy (`if not offer_id` at line 151). -/
def OfferId.truthy : OfferId → Bool
  | .intId n => n != 0
  | .strId s => s != ""

/-- Rendering of the offer id inside the f-string at line 155. -/
def OfferId.render : OfferId → String
  | .intId n => toString n
  | .strId s => s

/-- The `offerDetail` sub-object of an API offer (line 166). -/
structure OfferDetail where
  currentMinBid : Option ℤ
  initialBidValue : Option ℤ
deriving DecidableEq, Repr

/-- A raw offer from the SuperBid API, restricted to the fields the monitor
reads. -/
structure Offer where
  id : Option OfferId
  totalBids : Option ℤ
  totalBidders : Option ℤ
  offerDetail : Option OfferDetail
deriving DecidableEq, Repr

/-- The projection of a reference-view row stored in `self.db_items`
(lines 94-99). -/
structure DbItem where
  category : Option String
  source : Option String
  external_id : Option String
  lot_number : Option String
deriving DecidableEq, Repr

/-- A row returned by the `vw_auctions_unified` query (line 81-86); every
selected column may be null. -/
structure RowIn where
  link : Option String
  category : Option String
  source : Option String
  external_id : Option String
  lot_number : Option String
deriving DecidableEq, Repr

/-- The combined record built by `process_offer` (lines 170-179). -/
structure BidRecord where
  category : Option String
  source : Option String
  external_id : Option String
  lot_number : Option String
  total_bids : ℤ
  total_bidders : ℤ
  current_value : Option ℤ
  captured_at : String
deriving DecidableEq, Repr

/-- Python `a or b` restricted to optional numbers: yields `b` whenever `a`
is falsy, i.e. absent, null, or the number zero (line 167). -/
def pyOr (a b : Option ℤ) : Option ℤ :=
  match a with
  | some v => if v = 0 then b else some v
  | none => b

/-- Lines 94-99: the dict value stored for a row of the reference view. -/
def projRow (row : RowIn) : DbItem :=
  { category := row.category, source := row.source,
    external_id := row.external_id, lot_number := row.lot_number }

/-- Lines 91-99 of `load_database_items`: fold the fetched rows into
`self.db_items`, keeping only rows whose `link` is truthy (present, non-null
and non-empty). `rows` is the concatenation of all fetched pages. -/
def buildDbItems (rows : List RowIn) : List (String × DbItem) :=
  rows.foldl
    (fun m row =>
      match row.link with
      | none => m
      | some l => if l = "" then m else updateAssoc m l (projRow row))
    []

/-- Line 155: the canonical URL derived from an offer id. -/
def canonicalLink (oid : OfferId) : String :=
  "https://exchange.superbid.net/oferta/" ++ oid.render

/-- `SuperBidMonitor.process_offer` (lines 148-179). Returns `none` for the
no-match cases and the combined record on a match; `now` is the value of
`datetime.now().isoformat()` at transform time. -/
def process_offer (db : List (String × DbItem)) (now : String) (offer : Offer) :
    Option BidRecord :=
  match offer.id with
  | none => none
  | some oid =>
    if oid.truthy then
      match lookupAssoc db (canonicalLink oid) with
      | none => none
      | some item =>
        let detail := offer.offerDetail.getD { currentMinBid := none, initialBidValue := none }
        some { category := item.category,
               source := item.source,
               external_id := item.external_id,
               lot_number := item.lot_number,
               total_bids := offer.totalBids.getD 0,
               total_bidders := offer.totalBidders.getD 0,
               current_value := pyOr detail.currentMinBid detail.initialBidValue,
               captured_at := now }
    else none

/-- Lines 239-244: the deduplication key of `save_bid_history` — category,
source, external id, and `captured_at` truncated to 19 characters (whole
seconds of an ISO timestamp). -/
def histKey (r : BidRecord) : Option String × Option String × Option String × String :=
  (r.category, r.source, r.external_id, r.captured_at.take 19)

/-- Folding a list into a Python dict keyed by `f`, later entries
overwriting earlier ones (lines 237-245). -/
def foldInsert {α β : Type} [DecidableEq α] (f : β → α) (l : List β)
    (m0 : List (α × β)) : List (α × β) :=
  l.foldl (fun m r => updateAssoc m (f r) r) m0

/-- Lines 237-247: `list(unique_records.values())`, the deduplicated list
handed to the bulk upsert. -/
def dedupHistory (records : List BidRecord) : List BidRecord :=
  (foldInsert histKey records []).map Prod.snd

/-- `SuperBidMonitor.save_bid_history` (lines 230-257). Returns the count the
storage layer reports together with the payload handed to the upsert (`none`
when the upsert was never called). `hist` is the length of `response.data`,
or `none` when the bulk write raises; the `except` branch returns 0. -/
def save_bid_history (records : List BidRecord) (hist : Option ℕ) :
    ℕ × Option (List BidRecord) :=
  if records = [] then (0, none)
  else
    match hist with
    | none => (0, some (dedupHistory records))
    | some n => (n, some (dedupHistory records))

/-- Lines 190-195: `by_category` grouping — append the record to the list of
its category, first-occurrence order of categories preserved. -/
def appendGroup : List (Option String × List BidRecord) → Option String → BidRecord →
    List (Option String × List BidRecord)
  | [], c, r => [(c, [r])]
  | (c1, rs) :: t, c, r =>
    if c1 = c then (c1, rs ++ [r]) :: t else (c1, rs) :: appendGroup t c r

/-- Lines 190-195: group the records of a run by category. -/
def groupByCat (records : List BidRecord) : List (Option String × List BidRecord) :=
  records.foldl (fun g r => appendGroup g r.category r) []

/-- The sequence of point updates `update_base_tables` attempts, in the order
of the nested loops at lines 197-220. -/
def updateAttempts (records : List BidRecord) : List BidRecord :=
  ((groupByCat records).map Prod.snd).flatten

/-- The per-category success counter loop (lines 201-220); `ok r` tells
whether the point update for `r` succeeds or raises. -/
def countIf (ok : BidRecord → Bool) (l : List BidRecord) : ℕ :=
  l.foldl (fun n r => if ok r then n + 1 else n) 0

/-- `SuperBidMonitor.update_base_tables` (lines 181-228): the value of
`updated_count` it returns. -/
def update_base_tables (records : List BidRecord) (ok : BidRecord → Bool) : ℕ :=
  (groupByCat records).foldl (fun n p => n + countIf ok p.2) 0

/-- A row of a base table, with the four columns the monitor writes plus the
remaining columns it leaves untouched, abstracted into `otherCols`. -/
structure BaseRow where
  total_bids : ℤ
  total_bidders : ℤ
  value : Option ℤ
  last_scraped_at : String
  otherCols : String
deriving DecidableEq, Repr

/-- The state of the base tables: table name, then the `(source, external_id)`
key, to the row stored there (if any). -/
abbrev BaseDB : Type := Option String → Option String × Option String → Option BaseRow

/-- Lines 203-212: the field overwrite a point update performs on a row. -/
def setFromRecord (r : BidRecord) (row : BaseRow) : BaseRow :=
  { total_bids := r.total_bids, total_bidders := r.total_bidders,
    value := r.current_value, last_scraped_at := r.captured_at,
    otherCols := row.otherCols }

/-- One point update of lines 203-212 against the database state: when the
update succeeds it overwrites the four fields of the row matching
`(source, external_id)` in the table named by the category; a failing update
leaves the state unchanged, and a missing row is a silent no-op. -/
def applyOne (ok : BidRecord → Bool) (db : BaseDB) (r : BidRecord) : BaseDB :=
  if ok r then
    fun c k =>
      if c = r.category ∧ k = (r.source, r.external_id) then (db c k).map (setFromRecord r)
      else db c k
  else db

/-- The database state after a sequence of point updates. -/
def applyRecords (ok : BidRecord → Bool) (db : BaseDB) (l : List BidRecord) : BaseDB :=
  l.foldl (applyOne ok) db

/-- The effect of one `update_base_tables` call on the base tables: the point
updates run in the grouped order of lines 197-220. -/
def update_base_apply (db : BaseDB) (records : List BidRecord) (ok : BidRecord → Bool) :
    BaseDB :=
  applyRecords ok db (updateAttempts records)

/-- Numerator of the IEEE-754 double nearest to 0.1, in units of 2 to the
power minus 55: the Python literal `0.1` is exactly `float01Num / 2 ^ 55`. -/
def float01Num : ℕ := 3602879701896397

/-- Round-to-nearest-even of `M` (an exact product numerator) to 53 bits of
significand, returning the numerator of the resulting double in the same
fixed-point scale. A value already fitting in 53 bits is exact. -/
def roundTo53 (M : ℕ) : ℕ :=
  if M < 2 ^ 53 then M
  else
    let s := M.log2 - 52
    let q := M / 2 ^ s
    let r := M % 2 ^ s
    let h := 2 ^ (s - 1)
    let q2 := if h < r then q + 1 else if r < h then q else if q % 2 = 0 then q else q + 1
    q2 * 2 ^ s

/-- Numerator (in units of 2 to the power minus 55) of the IEEE double
produced by the Python expression `N * 0.1` for a nonnegative integer `N`. -/
def roundMulNum (N : ℕ) : ℕ := roundTo53 (N * float01Num)

/-- Line 331: `matched_count < len(self.db_items) * 0.1`, with the
int-to-float comparison carried out exactly. -/
def lowMatchWarning (matched nItems : ℕ) : Bool :=
  decide (matched * 2 ^ 55 < roundMulNum nItems)

/-- Lines 26-45: the fixed category list the run iterates over. -/
def SUPERBID_CATEGORIES : List String :=
  ["alimentos-e-bebidas", "animais", "artes-decoracao-colecionismo",
   "bolsas-canetas-joias-e-relogios", "caminhoes-onibus", "carros-motos",
   "cozinhas-e-restaurantes", "eletrodomesticos", "embarcacoes-aeronaves",
   "imoveis", "industrial-maquinas-equipamentos", "maquinas-pesadas-agricolas",
   "materiais-para-construcao-civil", "moveis-e-decoracao",
   "movimentacao-transporte", "oportunidades", "sucatas-materiais-residuos",
   "tecnologia"]

/-- The external world of one run: the reference rows the load yields (`none`
models an exception during the load), the offers each category fetch returns
(already `[]` on any fetch fault, per lines 138-146), the success of each
point update, the outcome of the bulk history write, and the clock giving the
timestamp of the i-th matched offer. -/
structure Env where
  loadRows : Option (List RowIn)
  fetch : String → List Offer
  updateOk : BidRecord → Bool
  historyLen : Option ℕ
  clock : ℕ → String

/-- The observable outcome of one run: the boolean `run` returns, plus a log
of the work performed (categories fetched, records matched, update attempts,
history payload, and whether the low-match warning printed). -/
structure RunOut where
  success : Bool
  fetchedCategories : List String
  allRecords : List BidRecord
  updated : ℕ
  updateAttempted : List BidRecord
  saved : ℕ
  historyPayload : Option (List BidRecord)
  warned : Bool
deriving DecidableEq, Repr

/-- Lines 289-293: process one offer, appending the match (if any) and
advancing the clock index on each match. -/
def collectStep (db : List (String × DbItem)) (clock : ℕ → String)
    (acc : List BidRecord × ℕ) (offer : Offer) : List BidRecord × ℕ :=
  match process_offer db (clock acc.2) offer with
  | some r => (acc.1 ++ [r], acc.2 + 1)
  | none => acc

/-- Lines 283-295: `all_records`, accumulated across the category loop. -/
def collectRecords (db : List (String × DbItem)) (env : Env) : List BidRecord :=
  (SUPERBID_CATEGORIES.foldl
    (fun acc cat => (env.fetch cat).foldl (collectStep db env.clock) acc) ([], 0)).1

/-- `SuperBidMonitor.run` (lines 259-336), with its effects made explicit.
A failed load returns failure with no work done; an empty mapping returns
success with no work done; otherwise every category is fetched, matches are
collected, the base tables are updated, the history is written, and the
low-match warning is evaluated on `matched_count` against the mapping size. -/
def runMonitor (env : Env) : RunOut :=
  match env.loadRows with
  | none =>
    { success := false, fetchedCategories := [], allRecords := [], updated := 0,
      updateAttempted := [], saved := 0, historyPayload := none, warned := false }
  | some rows =>
    let db := buildDbItems rows
    if db = [] then
      { success := true, fetchedCategories := [], allRecords := [], updated := 0,
        updateAttempted := [], saved := 0, historyPayload := none, warned := false }
    else
      let recs := collectRecords db env
      let sv := save_bid_history recs env.historyLen
      { success := true,
        fetchedCategories := SUPERBID_CATEGORIES,
        allRecords := recs,
        updated := update_base_tables recs env.updateOk,
        updateAttempted := updateAttempts recs,
        saved := sv.1,
        historyPayload := sv.2,
        warned := lowMatchWarning recs.length db.length }

/-!
Helper lemmas about the association-list dict model.
-/

theorem mem_keys_updateAssoc {α β : Type} [DecidableEq α] (m : List (α × β))
    (k k2 : α) (v : β) :
    k2 ∈ (updateAssoc m k v).map Prod.fst ↔ k2 ∈ m.map Prod.fst ∨ k2 = k := by
  induction m with
  | nil => simp [updateAssoc]
  | cons p t ih =>
    obtain ⟨k1, v1⟩ := p
    simp only [updateAssoc]
    split_ifs with hk
    · subst hk
      simp only [List.map_cons, List.mem_cons]
      tauto
    · simp only [List.map_cons, List.mem_cons, ih]
      tauto

theorem mem_keys_buildAux (rows : List RowIn) (m0 : List (String × DbItem)) (k : String) :
    k ∈ (rows.foldl (fun m row =>
        match row.link with
        | none => m
        | some l => if l = "" then m else updateAssoc m l (projRow row)) m0).map Prod.fst ↔
      k ∈ m0.map Prod.fst ∨ ∃ row ∈ rows, row.link = some k ∧ k ≠ "" := by
  induction rows generalizing m0 with
  | nil => simp
  | cons row t ih =>
    rw [List.foldl_cons, ih]
    cases hl : row.link with
    | none => simp [hl]
    | some l =>
      by_cases he : l = ""
      · subst he
        simp only [hl, if_pos rfl, List.exists_mem_cons_iff, Option.some.injEq]
        constructor
        · intro h; rcases h with h | h
          · exact Or.inl h
          · exact Or.inr (Or.inr h)
        · intro h; rcases h with h | ⟨hc, hne⟩ | h
          · exact Or.inl h
          · exact absurd hc.symm hne
          · exact Or.inr h
      · simp only [hl, if_neg he, mem_keys_updateAssoc, List.exists_mem_cons_iff,
          Option.some.injEq]
        constructor
        · intro h
          rcases h with (h | h) | h
          · exact Or.inl h
          · subst h; exact Or.inr (Or.inl ⟨rfl, he⟩)
          · exact Or.inr (Or.inr h)
        · intro h
          rcases h with h | ⟨hc, _⟩ | h
          · exact Or.inl (Or.inl h)
          · exact Or.inl (Or.inr hc.symm)
          · exact Or.inr h

/-- C10: after the reference load, every key of `self.db_items` is a
non-empty link string: a row of the view whose `link` is absent, null or
empty is silently skipped by the `if link:` guard at line 93 and can never
match any offer. The mapping is built once by `load_database_items` and no
later stage of the embedding writes to it, so the invariant holds for the
rest of the run. -/
theorem c10_reference_keys_truthy (rows : List RowIn) (k : String) :
    k ∈ (buildDbItems rows).map Prod.fst ↔
      (∃ row ∈ rows, row.link = some k) ∧ k ≠ "" := by
  unfold buildDbItems
  rw [mem_keys_buildAux]
  simp only [List.map_nil, List.not_mem_nil, false_or]
  constructor
  · rintro ⟨row, hrow, hlink, hne⟩
    exact ⟨⟨row, hrow, hlink⟩, hne⟩
  · rintro ⟨⟨row, hrow, hlink⟩, hne⟩
    exact ⟨row, hrow, hlink, hne⟩

/-- C9: an offer whose `id` field is present but falsy — the integer 0 or
the empty string — is treated exactly like an offer with no identifier: the
`if not offer_id` guard at line 151 yields the no-match signal for every
mapping and every choice of the remaining fields, even though a canonical
URL could be derived from such an id. -/
theorem c9_falsy_id_no_match (db : List (String × DbItem)) (now : String)
    (tb tbd : Option ℤ) (od : Option OfferDetail) :
    process_offer db now
      { id := some (OfferId.intId 0), totalBids := tb,
        totalBidders := tbd, offerDetail := od } = none ∧
    process_offer db now
      { id := some (OfferId.strId ""), totalBids := tb,
        totalBidders := tbd, offerDetail := od } = none := by
  constructor <;> rfl

/-- C5: `process_offer` yields the no-match signal — rather than raising or
producing a record — whenever the offer lacks an identifier or its derived
canonical URL is not a key of the reference mapping. The embedding is a
total function, reflecting that every operation on these paths (dict `get`,
string formatting, mapping lookup) is non-raising in the source. -/
theorem c5_no_match_is_none (db : List (String × DbItem)) (now : String)
    (offer : Offer)
    (h : offer.id = none ∨
      ∃ oid, offer.id = some oid ∧ lookupAssoc db (canonicalLink oid) = none) :
    process_offer db now offer = none := by
  rcases h with h | ⟨oid, h1, h2⟩
  · simp [process_offer, h]
  · simp only [process_offer, h1, h2]
    cases ht : oid.truthy <;> simp

/-- Witness for C5 at a concrete input: an offer with no `id` key yields
no-match. -/
theorem c5_no_match_is_none_witness :
    process_offer [] "2026-01-01T00:00:00"
      { id := none, totalBids := some 3, totalBidders := some 1,
        offerDetail := none } = none :=
  c5_no_match_is_none [] "2026-01-01T00:00:00"
    { id := none, totalBids := some 3, totalBidders := some 1, offerDetail := none }
    (Or.inl rfl)

/-- C1 counterexample: a matched offer whose `offerDetail` carries a present
`currentMinBid` equal to 0 together with `initialBidValue` 50 produces
`current_value` 50, not the present `currentMinBid`: Python `or` at line 167
discards a falsy (zero or null) first operand, so the claimed "present of
any value" selection fails at this input. -/
theorem c1_counterexample :
    process_offer
      [("https://exchange.superbid.net/oferta/42",
        { category := some "tecnologia", source := some "superbid",
          external_id := some "42", lot_number := some "L1" })]
      "2026-01-01T00:00:00"
      { id := some (OfferId.strId "42"), totalBids := some 3, totalBidders := some 2,
        offerDetail := some { currentMinBid := some 0, initialBidValue := some 50 } } =
      some { category := some "tecnologia", source := some "superbid",
             external_id := some "42", lot_number := some "L1",
             total_bids := 3, total_bidders := 2,
             current_value := some 50, captured_at := "2026-01-01T00:00:00" } ∧
    some (50 : ℤ) ≠ some (0 : ℤ) := by
  exact ⟨rfl, by decide⟩

/-- C1 amended: for every matched offer, `current_value` is `currentMinBid`
when that field is present with a truthy (non-zero, non-null) value; when
`currentMinBid` is absent, null, or present with value zero, `current_value`
is exactly `initialBidValue` — hence absent when both are absent. -/
theorem c1_current_value_policy (db : List (String × DbItem)) (now : String)
    (offer : Offer) (rec : BidRecord) (d : OfferDetail)
    (hd : offer.offerDetail.getD { currentMinBid := none, initialBidValue := none } = d)
    (h : process_offer db now offer = some rec) :
    (∀ v : ℤ, d.currentMinBid = some v → v ≠ 0 → rec.current_value = some v) ∧
    ((d.currentMinBid = none ∨ d.currentMinBid = some 0) →
      rec.current_value = d.initialBidValue) := by
  subst hd
  have hcv : rec.current_value =
      pyOr (offer.offerDetail.getD
              { currentMinBid := none, initialBidValue := none }).currentMinBid
           (offer.offerDetail.getD
              { currentMinBid := none, initialBidValue := none }).initialBidValue := by
    cases hid : offer.id with
    | none => simp [process_offer, hid] at h
    | some oid =>
      cases ht : oid.truthy with
      | false => simp [process_offer, hid, ht] at h
      | true =>
        cases hl : lookupAssoc db (canonicalLink oid) with
        | none => simp [process_offer, hid, ht, hl] at h
        | some item =>
          simp only [process_offer, hid, ht, hl, if_true, Option.some.injEq] at h
          rw [← h]
  constructor
  · intro v hv hv0
    rw [hcv, hv]
    simp [pyOr, hv0]
  · intro hcase
    rcases hcase with hc | hc <;> rw [hcv, hc] <;> simp [pyOr]

/-- Witness for the amended C1 at the end-to-end example of the spec: a
matched offer with `currentMinBid` 100 and `initialBidValue` 50 yields
`current_value` 100. -/
theorem c1_current_value_policy_witness :
    (({ category := some "tecnologia", source := some "superbid",
        external_id := some "42", lot_number := some "L1",
        total_bids := 3, total_bidders := 2,
        current_value := some 100,
        captured_at := "2026-01-01T00:00:00" } : BidRecord).current_value) =
      some 100 :=
  (c1_current_value_policy
    [("https://exchange.superbid.net/oferta/42",
      { category := some "tecnologia", source := some "superbid",
        external_id := some "42", lot_number := some "L1" })]
    "2026-01-01T00:00:00"
    { id := some (OfferId.strId "42"), totalBids := some 3, totalBidders := some 2,
      offerDetail := some { currentMinBid := some 100, initialBidValue := some 50 } }
    { category := some "tecnologia", source := some "superbid",
      external_id := some "42", lot_number := some "L1",
      total_bids := 3, total_bidders := 2,
      current_value := some 100, captured_at := "2026-01-01T00:00:00" }
    { currentMinBid := some 100, initialBidValue := some 50 }
    rfl rfl).1 100 rfl (by decide)

theorem lookupAssoc_updateAssoc {α β : Type} [DecidableEq α] (m : List (α × β))
    (k k2 : α) (v : β) :
    lookupAssoc (updateAssoc m k v) k2 = if k2 = k then some v else lookupAssoc m k2 := by
  induction m with
  | nil =>
    simp only [updateAssoc, lookupAssoc]
    rcases eq_or_ne k2 k with h | h
    · subst h; simp
    · simp [h, Ne.symm h]
  | cons p t ih =>
    obtain ⟨k1, v1⟩ := p
    by_cases h1 : k1 = k
    · subst h1
      rw [updateAssoc, if_pos rfl]
      simp only [lookupAssoc]
      rcases eq_or_ne k1 k2 with h2 | h2
      · subst h2; simp
      · simp [h2, Ne.symm h2]
    · rw [updateAssoc, if_neg h1]
      simp only [lookupAssoc, ih]
      rcases eq_or_ne k1 k2 with h2 | h2
      · subst h2
        simp [h1]
      · simp [h2]

theorem mem_updateAssoc {α β : Type} [DecidableEq α] (m : List (α × β)) (k : α) (v : β)
    (p : α × β) (hp : p ∈ updateAssoc m k v) : p ∈ m ∨ p = (k, v) := by
  induction m with
  | nil => exact Or.inr (by simpa [updateAssoc] using hp)
  | cons q t ih =>
    obtain ⟨k1, v1⟩ := q
    simp only [updateAssoc] at hp
    split_ifs at hp with h1
    · rcases List.mem_cons.mp hp with h | h
      · exact Or.inr h
      · exact Or.inl (List.mem_cons_of_mem _ h)
    · rcases List.mem_cons.mp hp with h | h
      · exact Or.inl (h ▸ List.mem_cons_self _ _)
      · rcases ih h with h2 | h2
        · exact Or.inl (List.mem_cons_of_mem _ h2)
        · exact Or.inr h2

theorem keys_updateAssoc {α β : Type} [DecidableEq α] (m : List (α × β)) (k : α) (v : β) :
    (updateAssoc m k v).map Prod.fst =
      if k ∈ m.map Prod.fst then m.map Prod.fst else m.map Prod.fst ++ [k] := by
  induction m with
  | nil => simp [updateAssoc]
  | cons p t ih =>
    obtain ⟨k1, v1⟩ := p
    by_cases h1 : k1 = k
    · subst h1
      rw [updateAssoc, if_pos rfl]
      simp
    · rw [updateAssoc, if_neg h1]
      simp only [List.map_cons, ih, List.mem_cons]
      by_cases hk : k ∈ t.map Prod.fst
      · rw [if_pos hk, if_pos (Or.inr hk)]
      · rw [if_neg hk, if_neg ?_, List.cons_append]
        intro hor
        rcases hor with h | h
        · exact h1 h.symm
        · exact hk h

theorem keys_nodup_updateAssoc {α β : Type} [DecidableEq α] (m : List (α × β))
    (k : α) (v : β) (h : (m.map Prod.fst).Nodup) :
    ((updateAssoc m k v).map Prod.fst).Nodup := by
  rw [keys_updateAssoc]
  split_ifs with hk
  · exact h
  · rw [List.nodup_append]
    exact ⟨h, List.nodup_singleton k, by simpa using hk⟩

theorem lookupAssoc_eq_some_of_mem {α β : Type} [DecidableEq α] (m : List (α × β))
    (hnd : (m.map Prod.fst).Nodup) (k : α) (v : β) (h : (k, v) ∈ m) :
    lookupAssoc m k = some v := by
  induction m with
  | nil => simp at h
  | cons p t ih =>
    obtain ⟨k1, v1⟩ := p
    rcases List.mem_cons.mp h with h | h
    · obtain ⟨h1, h2⟩ := Prod.mk.inj h
      subst h1; subst h2
      simp [lookupAssoc]
    · have hk : k ∈ t.map Prod.fst := List.mem_map.mpr ⟨(k, v), h, rfl⟩
      have h1 : k1 ≠ k := by
        intro he
        subst he
        exact (List.nodup_cons.mp (by simpa using hnd)).1 hk
      rw [lookupAssoc, if_neg h1]
      exact ih (List.nodup_cons.mp (by simpa using hnd)).2 h

theorem mem_of_lookupAssoc_eq_some {α β : Type} [DecidableEq α] (m : List (α × β))
    (k : α) (v : β) (h : lookupAssoc m k = some v) : (k, v) ∈ m := by
  induction m with
  | nil => simp [lookupAssoc] at h
  | cons p t ih =>
    obtain ⟨k1, v1⟩ := p
    rw [lookupAssoc] at h
    split_ifs at h with h1
    · obtain rfl := Option.some.inj h
      subst h1
      exact List.mem_cons_self _ _
    · exact List.mem_cons_of_mem _ (ih h)

theorem foldInsert_key_consistent {α β : Type} [DecidableEq α] (f : β → α)
    (l : List β) (m0 : List (α × β)) (h0 : ∀ p ∈ m0, f p.2 = p.1) :
    ∀ p ∈ foldInsert f l m0, f p.2 = p.1 := by
  induction l generalizing m0 with
  | nil => exact h0
  | cons r t ih =>
    simp only [foldInsert, List.foldl_cons]
    refine ih (updateAssoc m0 (f r) r) ?_
    intro p hp
    rcases mem_updateAssoc _ _ _ _ hp with h | h
    · exact h0 p h
    · subst h; rfl

theorem foldInsert_keys_nodup {α β : Type} [DecidableEq α] (f : β → α)
    (l : List β) (m0 : List (α × β)) (h0 : (m0.map Prod.fst).Nodup) :
    ((foldInsert f l m0).map Prod.fst).Nodup := by
  induction l generalizing m0 with
  | nil => exact h0
  | cons r t ih =>
    simp only [foldInsert, List.foldl_cons]
    exact ih _ (keys_nodup_updateAssoc _ _ _ h0)

theorem lookupAssoc_foldInsert {α β : Type} [DecidableEq α] (f : β → α)
    (l : List β) (m0 : List (α × β)) (k : α) :
    lookupAssoc (foldInsert f l m0) k =
      match l.reverse.find? (fun r => decide (f r = k)) with
      | some r => some r
      | none => lookupAssoc m0 k := by
  induction l generalizing m0 with
  | nil => simp [foldInsert]
  | cons r t ih =>
    simp only [foldInsert, List.foldl_cons]
    rw [show List.foldl (fun m x => updateAssoc m (f x) x) (updateAssoc m0 (f r) r) t =
          foldInsert f t (updateAssoc m0 (f r) r) from rfl, ih]
    rw [List.reverse_cons, List.find?_append]
    cases hf : t.reverse.find? (fun x => decide (f x = k)) with
    | some x => simp
    | none =>
      simp only [Option.none_or]
      rw [lookupAssoc_updateAssoc]
      rcases eq_or_ne (f r) k with hk | hk
      · simp [List.find?, hk]
      · simp [List.find?, hk, Ne.symm hk]

theorem dedupHistory_keys_nodup (l : List BidRecord) :
    ((dedupHistory l).map histKey).Nodup := by
  unfold dedupHistory
  rw [List.map_map]
  have hmap : (foldInsert histKey l []).map (histKey ∘ Prod.snd) =
      (foldInsert histKey l []).map Prod.fst :=
    List.map_congr_left fun p hp =>
      foldInsert_key_consistent histKey l [] (by simp) p hp
  rw [hmap]
  exact foldInsert_keys_nodup histKey l [] (by simp)

theorem mem_dedupHistory_iff (l : List BidRecord) (r : BidRecord) :
    r ∈ dedupHistory l ↔
      l.reverse.find? (fun x => decide (histKey x = histKey r)) = some r := by
  constructor
  · intro h
    obtain ⟨p, hp, hsnd⟩ := List.mem_map.mp h
    have hcons := foldInsert_key_consistent histKey l [] (by simp) p hp
    have hpair : p = (histKey r, r) := by
      obtain ⟨pk, pv⟩ := p
      simp only at hsnd hcons
      subst hsnd
      rw [← hcons]
    have hlk : lookupAssoc (foldInsert histKey l []) (histKey r) = some r :=
      lookupAssoc_eq_some_of_mem _ (foldInsert_keys_nodup histKey l [] (by simp)) _ _
        (hpair ▸ hp)
    rw [lookupAssoc_foldInsert] at hlk
    cases hf : l.reverse.find? (fun x => decide (histKey x = histKey r)) with
    | none => rw [hf] at hlk; simp [lookupAssoc] at hlk
    | some x => rw [hf] at hlk; simpa using hlk
  · intro h
    have hlk : lookupAssoc (foldInsert histKey l []) (histKey r) = some r := by
      rw [lookupAssoc_foldInsert, h]
    exact List.mem_map.mpr ⟨(histKey r, r), mem_of_lookupAssoc_eq_some _ _ _ hlk, rfl⟩

/-- C3: for every list of records handed to the history appender, the list
passed to the bulk upsert is `dedupHistory` of the input, which carries
exactly one record per composite key (category, source, external_id,
captured_at truncated to whole seconds) — the composite-key projections are
pairwise distinct — and for each key the surviving record is the
last-occurring record of the input list with that key; in particular two
records differing only in sub-second captured_at precision collapse to the
later-processed one. -/
theorem c3_history_dedup (l : List BidRecord) (hist : Option ℕ) (hne : l ≠ []) :
    (save_bid_history l hist).2 = some (dedupHistory l) ∧
    ((dedupHistory l).map histKey).Nodup ∧
    ∀ r : BidRecord, r ∈ dedupHistory l ↔
      l.reverse.find? (fun x => decide (histKey x = histKey r)) = some r := by
  refine ⟨?_, dedupHistory_keys_nodup l, fun r => mem_dedupHistory_iff l r⟩
  unfold save_bid_history
  rw [if_neg hne]
  cases hist <;> rfl

set_option maxRecDepth 4000 in
/-- Witness for C3: two records sharing (category, source, external_id) and
captured_at values differing only in sub-second precision; the upsert
payload keeps the later-processed one. -/
theorem c3_history_dedup_witness :
    (save_bid_history
      [{ category := some "imoveis", source := some "superbid",
         external_id := some "1", lot_number := none, total_bids := 1,
         total_bidders := 1, current_value := none,
         captured_at := "2026-01-01T12:00:00.100" },
       { category := some "imoveis", source := some "superbid",
         external_id := some "1", lot_number := none, total_bids := 2,
         total_bidders := 2, current_value := none,
         captured_at := "2026-01-01T12:00:00.900" }] (some 1)).2 =
      some (dedupHistory
        [{ category := some "imoveis", source := some "superbid",
           external_id := some "1", lot_number := none, total_bids := 1,
           total_bidders := 1, current_value := none,
           captured_at := "2026-01-01T12:00:00.100" },
         { category := some "imoveis", source := some "superbid",
           external_id := some "1", lot_number := none, total_bids := 2,
           total_bidders := 2, current_value := none,
           captured_at := "2026-01-01T12:00:00.900" }]) ∧
    dedupHistory
      [{ category := some "imoveis", source := some "superbid",
         external_id := some "1", lot_number := none, total_bids := 1,
         total_bidders := 1, current_value := none,
         captured_at := "2026-01-01T12:00:00.100" },
       { category := some "imoveis", source := some "superbid",
         external_id := some "1", lot_number := none, total_bids := 2,
         total_bidders := 2, current_value := none,
         captured_at := "2026-01-01T12:00:00.900" }] =
      [{ category := some "imoveis", source := some "superbid",
         external_id := some "1", lot_number := none, total_bids := 2,
         total_bidders := 2, current_value := none,
         captured_at := "2026-01-01T12:00:00.900" }] :=
  ⟨(c3_history_dedup _ (some 1) (by simp)).1, by decide⟩

theorem flatten_appendGroup (g : List (Option String × List BidRecord))
    (c : Option String) (r : BidRecord) :
    ((appendGroup g c r).map Prod.snd).flatten.Perm
      ((g.map Prod.snd).flatten ++ [r]) := by
  induction g with
  | nil => simp [appendGroup]
  | cons p t ih =>
    obtain ⟨c1, rs⟩ := p
    by_cases h : c1 = c
    · subst h
      rw [appendGroup, if_pos rfl]
      simp only [List.map_cons, List.flatten_cons]
      rw [List.append_assoc, List.append_assoc]
      exact List.Perm.append_left rs List.perm_append_comm
    · rw [appendGroup, if_neg h]
      simp only [List.map_cons, List.flatten_cons]
      rw [List.append_assoc]
      exact List.Perm.append_left rs (ih.trans (List.Perm.refl _))

theorem flatten_groupFold (l : List BidRecord)
    (g : List (Option String × List BidRecord)) :
    ((l.foldl (fun g r => appendGroup g r.category r) g).map Prod.snd).flatten.Perm
      ((g.map Prod.snd).flatten ++ l) := by
  induction l generalizing g with
  | nil => simp
  | cons r t ih =>
    rw [List.foldl_cons]
    refine (ih (appendGroup g r.category r)).trans ?_
    refine (List.Perm.append_right t (flatten_appendGroup g r.category r)).trans ?_
    rw [List.append_assoc]
    exact List.Perm.refl _

theorem updateAttempts_perm (records : List BidRecord) :
    (updateAttempts records).Perm records := by
  have h := flatten_groupFold records []
  simpa [updateAttempts, groupByCat] using h

theorem countIf_aux (ok : BidRecord → Bool) (l : List BidRecord) (n : ℕ) :
    l.foldl (fun n r => if ok r then n + 1 else n) n = n + l.countP ok := by
  induction l generalizing n with
  | nil => simp
  | cons r t ih =>
    rw [List.foldl_cons, ih, List.countP_cons]
    by_cases h : ok r
    · simp only [h, if_pos]
      omega
    · simp only [h, if_neg]
      simp [h]

theorem countIf_eq_countP (ok : BidRecord → Bool) (l : List BidRecord) :
    countIf ok l = l.countP ok := by
  simpa [countIf] using countIf_aux ok l 0

theorem update_base_aux (ok : BidRecord → Bool)
    (g : List (Option String × List BidRecord)) (n : ℕ) :
    g.foldl (fun n p => n + countIf ok p.2) n =
      n + ((g.map Prod.snd).flatten).countP ok := by
  induction g generalizing n with
  | nil => simp
  | cons p t ih =>
    rw [List.foldl_cons, ih]
    rw [countIf_eq_countP]
    simp only [List.map_cons, List.flatten_cons, List.countP_append]
    omega

/-- C6: a failing point update is caught and does not prevent the attempt of
any remaining update — the sequence of attempted updates is a permutation of
the input list, whatever the per-record success oracle — and the returned
`updated_count` is exactly the number of records whose update succeeded. -/
theorem c6_update_base_best_effort (records : List BidRecord)
    (ok : BidRecord → Bool) :
    (updateAttempts records).Perm records ∧
    update_base_tables records ok = records.countP ok := by
  refine ⟨updateAttempts_perm records, ?_⟩
  have h1 : update_base_tables records ok = (updateAttempts records).countP ok := by
    simpa [update_base_tables, updateAttempts] using
      update_base_aux ok (groupByCat records) 0
  rw [h1]
  exact (updateAttempts_perm records).countP_eq ok

/-- Whether a successful point update for `r` touches the row of table `c`
at key `k`. -/
def touches (ok : BidRecord → Bool) (c : Option String)
    (k : Option String × Option String) (r : BidRecord) : Bool :=
  ok r && decide (c = r.category) && decide (k = (r.source, r.external_id))

theorem setFromRecord_comp (x r : BidRecord) (row : BaseRow) :
    setFromRecord x (setFromRecord r row) = setFromRecord x row := rfl

theorem applyRecords_char (ok : BidRecord → Bool) (l : List BidRecord)
    (db : BaseDB) (c : Option String) (k : Option String × Option String) :
    applyRecords ok db l c k =
      match l.reverse.find? (touches ok c k) with
      | some r => (db c k).map (setFromRecord r)
      | none => db c k := by
  induction l generalizing db with
  | nil => simp [applyRecords]
  | cons r t ih =>
    simp only [applyRecords, List.foldl_cons]
    rw [show List.foldl (applyOne ok) (applyOne ok db r) t =
          applyRecords ok (applyOne ok db r) t from rfl, ih]
    rw [List.reverse_cons, List.find?_append]
    cases hf : t.reverse.find? (touches ok c k) with
    | some x =>
      simp only [Option.or_some]
      by_cases hok : ok r
      · rw [applyOne, if_pos hok]
        by_cases hc : c = r.category ∧ k = (r.source, r.external_id)
        · rw [if_pos hc]
          cases db c k <;> simp [setFromRecord_comp]
        · rw [if_neg hc]
      · rw [applyOne, if_neg hok]
    | none =>
      simp only [Option.none_or]
      by_cases ht : touches ok c k r
      · rw [List.find?_cons_of_pos _ ht]
        have hsplit : ok r = true ∧ c = r.category ∧ k = (r.source, r.external_id) := by
          simpa [touches, Bool.and_eq_true, decide_eq_true_iff, and_assoc] using ht
        rw [applyOne, if_pos hsplit.1, if_pos ⟨hsplit.2.1, hsplit.2.2⟩]
      · rw [List.find?_cons_of_neg _ ht]
        simp only [List.find?_nil]
        by_cases hok : ok r
        · rw [applyOne, if_pos hok]
          have hc : ¬(c = r.category ∧ k = (r.source, r.external_id)) := by
            intro hcc
            exact ht (by simp [touches, hok, hcc.1, hcc.2])
          rw [if_neg hc]
        · rw [applyOne, if_neg hok]

theorem applyRecords_idem (ok : BidRecord → Bool) (l : List BidRecord) (db : BaseDB)
    (c : Option String) (k : Option String × Option String) :
    applyRecords ok (applyRecords ok db l) l c k = applyRecords ok db l c k := by
  rw [applyRecords_char ok l (applyRecords ok db l) c k, applyRecords_char ok l db c k]
  cases hf : l.reverse.find? (touches ok c k) with
  | none => rfl
  | some r => cases db c k <;> simp [setFromRecord_comp]

/-- C8: running the base-table update twice with an identical list of
records leaves every row of every base table with the same final values as
running it once — each point update is a pure overwrite of
(total_bids, total_bidders, value, last_scraped_at) keyed on
(source, external_id) within the category table, with no accumulation. This
holds for every success oracle, every starting database state, and every
row address. -/
theorem c8_update_base_idempotent (db : BaseDB) (records : List BidRecord)
    (ok : BidRecord → Bool) (c : Option String)
    (k : Option String × Option String) :
    update_base_apply (update_base_apply db records ok) records ok c k =
      update_base_apply db records ok c k := by
  unfold update_base_apply
  exact applyRecords_idem ok (updateAttempts records) db c k

theorem runMonitor_some (env : Env) (rows : List RowIn)
    (h : env.loadRows = some rows) :
    runMonitor env =
      if buildDbItems rows = [] then
        { success := true, fetchedCategories := [], allRecords := [], updated := 0,
          updateAttempted := [], saved := 0, historyPayload := none, warned := false }
      else
        { success := true,
          fetchedCategories := SUPERBID_CATEGORIES,
          allRecords := collectRecords (buildDbItems rows) env,
          updated := update_base_tables (collectRecords (buildDbItems rows) env)
            env.updateOk,
          updateAttempted := updateAttempts (collectRecords (buildDbItems rows) env),
          saved := (save_bid_history (collectRecords (buildDbItems rows) env)
            env.historyLen).1,
          historyPayload := (save_bid_history (collectRecords (buildDbItems rows) env)
            env.historyLen).2,
          warned := lowMatchWarning (collectRecords (buildDbItems rows) env).length
            (buildDbItems rows).length } := by
  unfold runMonitor
  rw [h]

/-- C4: when the reference load succeeds but yields an empty mapping, the
run returns success immediately and performs no further work: no category is
fetched, no base-table update is attempted, and the history upsert is never
called. -/
theorem c4_empty_mapping_success_noop (env : Env) (rows : List RowIn)
    (h1 : env.loadRows = some rows) (h2 : buildDbItems rows = []) :
    runMonitor env =
      { success := true, fetchedCategories := [], allRecords := [], updated := 0,
        updateAttempted := [], saved := 0, historyPayload := none, warned := false } := by
  rw [runMonitor_some env rows h1, if_pos h2]

/-- Witness for C4: a load that yields a single row with a null link, hence
an empty mapping; the fetch oracle offers data that is never requested. -/
theorem c4_empty_mapping_success_noop_witness :
    runMonitor
      { loadRows := some
          [{ link := none, category := some "imoveis", source := some "superbid",
             external_id := some "9", lot_number := none }],
        fetch := fun _ =>
          [{ id := some (OfferId.strId "9"), totalBids := some 4,
             totalBidders := some 2, offerDetail := none }],
        updateOk := fun _ => true,
        historyLen := some 7,
        clock := fun _ => "2026-01-01T00:00:00" } =
      { success := true, fetchedCategories := [], allRecords := [], updated := 0,
        updateAttempted := [], saved := 0, historyPayload := none, warned := false } :=
  c4_empty_mapping_success_noop _ _ rfl rfl

theorem save_none_fst (records : List BidRecord) :
    (save_bid_history records none).1 = 0 := by
  unfold save_bid_history
  split
  · rfl
  · rfl

/-- C7: a failure of the bulk history write makes the history appender
return zero saved records without raising, the run still reports success,
and the base-table update stage is unaffected: the records collected, the
updates attempted and the count of successful updates are identical to those
of the same run with any successful history write. -/
theorem c7_history_failure_isolated (env : Env) (rows : List RowIn)
    (h1 : env.loadRows = some rows) (h2 : env.historyLen = none) :
    (runMonitor env).success = true ∧ (runMonitor env).saved = 0 ∧
    ∀ n : ℕ,
      (runMonitor env).updated =
        (runMonitor { env with historyLen := some n }).updated ∧
      (runMonitor env).updateAttempted =
        (runMonitor { env with historyLen := some n }).updateAttempted ∧
      (runMonitor env).allRecords =
        (runMonitor { env with historyLen := some n }).allRecords := by
  by_cases hdb : buildDbItems rows = []
  · rw [runMonitor_some env rows h1, if_pos hdb]
    refine ⟨rfl, rfl, fun n => ?_⟩
    rw [runMonitor_some { env with historyLen := some n } rows h1, if_pos hdb]
    exact ⟨rfl, rfl, rfl⟩
  · rw [runMonitor_some env rows h1, if_neg hdb]
    refine ⟨rfl, ?_, fun n => ?_⟩
    · show (save_bid_history (collectRecords (buildDbItems rows) env)
        env.historyLen).1 = 0
      rw [h2]
      exact save_none_fst _
    · rw [runMonitor_some { env with historyLen := some n } rows h1, if_neg hdb]
      exact ⟨rfl, rfl, rfl⟩

/-- A concrete environment for the C7 witness: one reference row, a fetch
that returns a matching offer for one category, and a failing bulk history
write. -/
def envC7 : Env :=
  { loadRows := some
      [{ link := some "https://exchange.superbid.net/oferta/9",
         category := some "imoveis", source := some "superbid",
         external_id := some "9", lot_number := none }],
    fetch := fun c =>
      if c = "imoveis" then
        [{ id := some (OfferId.strId "9"), totalBids := some 4,
           totalBidders := some 2,
           offerDetail := some { currentMinBid := some 10, initialBidValue := none } }]
      else [],
    updateOk := fun _ => true,
    historyLen := none,
    clock := fun _ => "2026-01-01T00:00:00" }

/-- Witness for C7 at the concrete environment `envC7`. -/
theorem c7_history_failure_isolated_witness :
    (runMonitor envC7).success = true ∧ (runMonitor envC7).saved = 0 ∧
    (runMonitor envC7).updated =
      (runMonitor { envC7 with historyLen := some 5 }).updated := by
  have h := c7_history_failure_isolated envC7 _ rfl rfl
  exact ⟨h.1, h.2.1, (h.2.2 5).1⟩

theorem roundTo53_of_ge (M : ℕ) (hM : 2 ^ 53 ≤ M) :
    roundTo53 M =
      (if 2 ^ (M.log2 - 52 - 1) < M % 2 ^ (M.log2 - 52) then M / 2 ^ (M.log2 - 52) + 1
       else if M % 2 ^ (M.log2 - 52) < 2 ^ (M.log2 - 52 - 1) then M / 2 ^ (M.log2 - 52)
       else if (M / 2 ^ (M.log2 - 52)) % 2 = 0 then M / 2 ^ (M.log2 - 52)
       else M / 2 ^ (M.log2 - 52) + 1) * 2 ^ (M.log2 - 52) := by
  unfold roundTo53
  rw [if_neg (not_lt.mpr hM)]

theorem roundTo53_bounds (M : ℕ) (hM : 2 ^ 53 ≤ M) :
    M ≤ roundTo53 M + 2 ^ (M.log2 - 53) ∧ roundTo53 M ≤ M + 2 ^ (M.log2 - 53) := by
  have hM0 : M ≠ 0 := by
    intro h
    rw [h] at hM
    exact absurd hM (by norm_num)
  have hL : 53 ≤ M.log2 := (Nat.le_log2 hM0).mpr hM
  rw [roundTo53_of_ge M hM]
  have hsub : M.log2 - 52 - 1 = M.log2 - 53 := by omega
  rw [hsub]
  set s := M.log2 - 52 with hs
  have hs1 : 1 ≤ s := by omega
  have h2s : 2 ^ s = 2 * 2 ^ (M.log2 - 53) := by
    have : M.log2 - 53 + 1 = s := by omega
    rw [← this, pow_succ]
    ring
  have hdm := Nat.div_add_mod M (2 ^ s)
  have hmlt : M % 2 ^ s < 2 ^ s := Nat.mod_lt _ (by positivity)
  have hF1 : (M / 2 ^ s + 1) * 2 ^ s = 2 ^ s * (M / 2 ^ s) + 2 ^ s := by ring
  have hF2 : (M / 2 ^ s) * 2 ^ s = 2 ^ s * (M / 2 ^ s) := by ring
  split_ifs with hlt hgt hev
  · exact ⟨by omega, by omega⟩
  · exact ⟨by omega, by omega⟩
  · exact ⟨by omega, by omega⟩
  · exact ⟨by omega, by omega⟩

theorem log2_pow_le (M : ℕ) (hM : 2 ^ 53 ≤ M) :
    2 ^ (M.log2 - 53) * 2 ^ 53 ≤ M := by
  have hM0 : M ≠ 0 := by
    intro h
    rw [h] at hM
    exact absurd hM (by norm_num)
  have hL : 53 ≤ M.log2 := (Nat.le_log2 hM0).mpr hM
  calc 2 ^ (M.log2 - 53) * 2 ^ 53 = 2 ^ M.log2 := by
        rw [← pow_add]
        congr 1
        omega
    _ ≤ M := Nat.log2_self_le hM0

/-- C2: for every run with a non-empty reference mapping of any feasible
size (at most 2 ^ 40 items), the low-match diagnostic of line 331 — the
comparison `matched_count < len(self.db_items) * 0.1`, carried out here over
the exact value of the IEEE-754 double product — fires exactly when
matched_count is strictly below one tenth of the reference-item count; in
particular at a match rate of exactly 10 percent (ten times matched_count
equal to the item count) the warning is not emitted. -/
theorem c2_low_match_warning_iff (matched nItems : ℕ)
    (h1 : 1 ≤ nItems) (h2 : nItems ≤ 2 ^ 40) :
    lowMatchWarning matched nItems = true ↔ 10 * matched < nItems := by
  unfold lowMatchWarning
  rw [decide_eq_true_iff]
  unfold roundMulNum
  set M := nItems * float01Num with hMdef
  have hc : (10 : ℕ) * float01Num = 2 ^ 55 + 2 := by norm_num [float01Num]
  have h10M : 10 * M = nItems * 2 ^ 55 + 2 * nItems := by
    calc 10 * M = nItems * (10 * float01Num) := by rw [hMdef]; ring
      _ = nItems * (2 ^ 55 + 2) := by rw [hc]
      _ = nItems * 2 ^ 55 + 2 * nItems := by ring
  by_cases hA : M < 2 ^ 53
  · unfold roundTo53
    rw [if_pos hA]
    omega
  · push_neg at hA
    have hM0 : M ≠ 0 := by
      intro h0
      rw [h0] at hA
      exact absurd hA (by norm_num)
    obtain ⟨hb1, hb2⟩ := roundTo53_bounds M hA
    have hsm := log2_pow_le M hA
    have hMup : M < 2 ^ 92 := by
      have hle : M ≤ 2 ^ 40 * float01Num := by
        rw [hMdef]
        exact Nat.mul_le_mul_right _ h2
      have hlt : (2 : ℕ) ^ 40 * float01Num < 2 ^ 92 := by norm_num [float01Num]
      omega
    have hHsmall : 10 * 2 ^ (M.log2 - 53) < 2 ^ 43 := by omega
    by_cases hmod : nItems % 10 = 0
    · -- the item count is a multiple of ten: the product rounds exactly
      set K := nItems / 10 with hK
      have hNK : nItems = 10 * K := by omega
      have hK0 : K ≠ 0 := by omega
      have hK37 : K ≤ 2 ^ 37 := by omega
      have hMK : M = K * 2 ^ 55 + 2 * K := by
        calc M = 10 * K * float01Num := by rw [hMdef, hNK]
          _ = K * (10 * float01Num) := by ring
          _ = K * (2 ^ 55 + 2) := by rw [hc]
          _ = K * 2 ^ 55 + 2 * K := by ring
      set j := K.log2 with hj
      have hj1 : 2 ^ j ≤ K := Nat.log2_self_le hK0
      have hj2 : K < 2 ^ j * 2 := by
        have := @Nat.lt_log2_self K
        rw [pow_succ] at this
        exact this
      have hL : M.log2 = 55 + j := by
        have hlow : 2 ^ (55 + j) ≤ M := by
          rw [pow_add]
          omega
        have hhigh : M < 2 ^ (56 + j) := by
          rw [pow_add]
          omega
        have hlo := (Nat.le_log2 hM0).mpr hlow
        have hup := (Nat.log2_lt hM0).mpr hhigh
        omega
      have hj52 : j ≤ 52 := by
        by_contra hgt
        push_neg at hgt
        have : (2 : ℕ) ^ 53 ≤ 2 ^ j := Nat.pow_le_pow_right (by norm_num) (by omega)
        have : (2 : ℕ) ^ 37 < 2 ^ 53 := by norm_num
        omega
      have hexact : roundTo53 M = K * 2 ^ 55 := by
        rw [roundTo53_of_ge M hA, hL]
        have he1 : 55 + j - 52 = j + 3 := by omega
        have he2 : j + 3 - 1 = j + 2 := by omega
        rw [he1, he2]
        have hpw : (2 : ℕ) ^ (j + 3) * 2 ^ (52 - j) = 2 ^ 55 := by
          rw [← pow_add]
          congr 1
          omega
        have hdecomp : M = 2 ^ (j + 3) * (K * 2 ^ (52 - j)) + 2 * K := by
          have hKpw : 2 ^ (j + 3) * (K * 2 ^ (52 - j)) = K * 2 ^ 55 := by
            rw [← hpw]
            ring
          rw [hMK, hKpw]
        have h23 : (2 : ℕ) ^ (j + 2) * 2 = 2 ^ (j + 3) := by
          rw [← pow_succ]
        have h2K : 2 * K < 2 ^ (j + 2) := by
          have hj2e : (2 : ℕ) ^ (j + 1) * 2 = 2 ^ (j + 2) := by
            rw [← pow_succ]
          have hj1e : (2 : ℕ) ^ j * 2 = 2 ^ (j + 1) := by
            rw [← pow_succ]
          omega
        have hq : M / 2 ^ (j + 3) = K * 2 ^ (52 - j) := by
          rw [hdecomp, Nat.mul_add_div (by positivity)]
          have h0 : 2 * K / 2 ^ (j + 3) = 0 := Nat.div_eq_of_lt (by omega)
          omega
        have hr : M % 2 ^ (j + 3) = 2 * K := by
          rw [hdecomp, Nat.mul_add_mod]
          exact Nat.mod_eq_of_lt (by omega)
        rw [hq, hr]
        rw [if_neg (by omega), if_pos h2K]
        rw [mul_assoc, ← pow_add]
        have : 52 - j + (j + 3) = 55 := by omega
        rw [this]
      rw [hexact]
      omega
    · -- the item count is not a multiple of ten: the rounding slack of at
      -- most half an ulp cannot move the threshold across an integer
      omega

/-- Witness for C2 at the exact 10 percent boundary: 3 matches out of 30
reference items do not trigger the warning (in Python, `30 * 0.1` is exactly
the double 3.0). -/
theorem c2_low_match_warning_iff_witness : lowMatchWarning 3 30 = false := by
  have h := c2_low_match_warning_iff 3 30 (by norm_num) (by norm_num)
  cases hb : lowMatchWarning 3 30 with
  | false => rfl
  | true => exact absurd (h.mp hb) (by norm_num)
